import Mathlib

/-!
Verification of the svn2svn replay engine (tonyduckles/svn2svn).

Shallow embedding of the pure decision logic of the engine:
  * `svn2svn/run/common.py`     — `is_child_path`, `find_svn_ancestors`
  * `svn2svn/run/svnreplay.py`  — `get_rev_map`, `set_rev_map`, `build_rev_map`,
                                  `in_ancestors`, `process_svn_log_entry`
  * `svn2svn/svnclient.py`      — log-iterator chunk sizing, `run_svn_log`
                                  argument construction
  * `svn2svn/shell.py`          — `run_svn` at-sign masking

External SVN processes are modelled as oracles (functions passed as
parameters); machine floats (wall-clock durations) are modelled as rationals,
since only their comparisons against the constants 10.0 and 20.0 matter.
-/

namespace Svn2Svn

/-! ### String helpers

Python string primitives used by the engine, re-implemented over `List Char`
so that every definition is kernel-computable.  Python compares strings
lexicographically by code point, which coincides with lexicographic order on
the `Char` lists. -/

/-- Python `a < b` on strings: lexicographic on code points. -/
def chars_lt : List Char → List Char → Bool
  | [], [] => false
  | [], _ :: _ => true
  | _ :: _, [] => false
  | a :: as, b :: bs => if a < b then true else if b < a then false else chars_lt as bs

/-- Python `a < b` for `str`. -/
def str_lt (a b : String) : Bool := chars_lt a.data b.data

/-- Python `pat in s` for single-character `pat`. -/
def str_contains (s : String) (c : Char) : Bool := s.data.contains c

/-- Python `s.startswith(p)`. -/
def str_startswith (s p : String) : Bool := p.data.isPrefixOf s.data

/-- Worker for `py_replace`, with explicit fuel (a fuel of the length of the
subject string suffices, since each step consumes at least one character when
the pattern is non-empty). -/
def py_replace_go (pat rep : List Char) : Nat → List Char → List Char
  | 0, s => s
  | _ + 1, [] => []
  | fuel + 1, c :: rest =>
    if pat.isPrefixOf (c :: rest) then
      rep ++ py_replace_go pat rep fuel (List.drop pat.length (c :: rest))
    else
      c :: py_replace_go pat rep fuel rest

/-- Python `s.replace(pat, rep)`: replace every non-overlapping occurrence of
`pat` in `s`, scanning left to right.  (The engine only ever calls this with a
non-empty `pat`, namely a changed path from an SVN log.) -/
def py_replace (s pat rep : String) : String :=
  ⟨py_replace_go pat.data rep.data s.data.length s.data⟩

/-- Python `s.strip(chars)`: remove leading and trailing characters satisfying
`p`. -/
def py_strip (p : Char → Bool) (s : String) : String :=
  ⟨((s.data.dropWhile p).reverse.dropWhile p).reverse⟩

/-- Python `s.strip("/")`. -/
def strip_slashes (s : String) : String := py_strip (fun c => c = '/') s

/-- Python `os.path.dirname(p)`: everything before the final `/`, or `""`. -/
def py_dirname (s : String) : String :=
  match (s.data.reverse.dropWhile (fun c => ¬ (c = '/'))) with
  | [] => ""
  | _ :: rest => ⟨rest.reverse⟩

/-- Truthiness of a Python string-or-None value (`None` and `""` are falsy). -/
def truthy_str : Option String → Bool
  | none => false
  | some s => !(s = "")

/-- Truthiness of a Python int-or-None value (`None` and `0` are falsy). -/
def truthy_nat : Option Nat → Bool
  | none => false
  | some n => !(n = 0)

/-! ### `svn2svn/run/common.py` -/

/-- `common.is_child_path(path, p_path)`:
`True if (path == p_path) or (path.startswith(p_path+"/")) else False`. -/
def is_child_path (path p_path : String) : Bool :=
  path = p_path || str_startswith path (p_path ++ "/")

/-! ### Chunked log iterator (`svnclient.iter_svn_log_entries`) -/

/-- `svnclient.log_duration_threshold = 10.0`.  Wall-clock durations are
modelled as rationals; only their order relative to 10.0 and 20.0 matters. -/
def log_duration_threshold : ℚ := 10

/-- `svnclient.log_min_chunk_length = 10`. -/
def log_min_chunk_length : Nat := 10

/-- `svnclient.log_max_chunk_length = 10000`. -/
def log_max_chunk_length : Nat := 10000

/-- The chunk-length adaptation at the bottom of each `iter_svn_log_entries`
loop iteration (`svnclient.py`):

    if duration < log_duration_threshold:
        chunk_length = min(log_max_chunk_length, int(chunk_length * 2.0))
    elif duration > log_duration_threshold * 2:
        chunk_length = max(log_min_chunk_length, int(chunk_length / 2.0))

`int(c * 2.0) = 2 * c` and `int(c / 2.0) = c / 2` (floor) exactly, for the
integer magnitudes reachable here (far below 2^53). -/
def adapt_chunk_length (chunk_length : Nat) (duration : ℚ) : Nat :=
  if duration < log_duration_threshold then
    min log_max_chunk_length (chunk_length * 2)
  else if duration > log_duration_threshold * 2 then
    max log_min_chunk_length (chunk_length / 2)
  else chunk_length

/-- `stop_rev` computed at the head of each `iter_svn_log_entries` iteration:

    stop_rev = min(last_rev, cur_rev + chunk_length)
    stop_rev = min(stop_rev, cur_anc_end_rev) if cur_anc_end_rev else stop_rev
-/
def iter_stop_rev (cur_rev chunk_length last_rev : Nat)
    (cur_anc_end_rev : Option Nat) : Nat :=
  let stop_rev := min last_rev (cur_rev + chunk_length)
  match cur_anc_end_rev with
  | some a => min stop_rev a
  | none => stop_rev

/-- The advance of `cur_rev` taken when a chunk returns no entries
(`else: cur_rev = int(stop_rev) + 1` in `iter_svn_log_entries`). -/
def iter_empty_next_rev (cur_rev chunk_length last_rev : Nat)
    (cur_anc_end_rev : Option Nat) : Nat :=
  iter_stop_rev cur_rev chunk_length last_rev cur_anc_end_rev + 1

/-- The advance of `cur_rev` taken when a chunk did return entries and the
last yielded entry is below `last_rev` (`cur_rev = int(e['revision']) + 1`). -/
def iter_nonempty_next_rev (last_yielded_rev : Nat) : Nat := last_yielded_rev + 1

/-! ### `shell.run_svn` at-sign masking -/

/-- The per-argument transformation of `shell.run_svn` when
`mask_atsign=True`:

    if "@" in args[idx] and args[idx][0] not in ("-", '"'):
        args[idx] = "%s@" % args[idx]

(`args[idx][0]` is reached only when the argument contains `@`, hence is
non-empty; `headD` with a default not in the tested set models that.) -/
def mask_atsign_arg (a : String) : String :=
  if str_contains a '@' && !(a.data.headD ' ' = '-' || a.data.headD ' ' = '"') then
    a ++ "@"
  else a

/-- The masking loop of `shell.run_svn` over an argument list (applied to both
`args` and `bulk_args`). -/
def mask_atsign (args : List String) : List String := args.map mask_atsign_arg

/-! ### Revision map (`svnreplay.get_rev_map` / `set_rev_map`)

The module-global `rev_map` Python dict is modelled as an association list in
which the most recent assignment comes first, so `List.lookup` returns the
value of the latest assignment, exactly like a dict read. -/

/-- The in-memory source-rev → target-rev mapping (`rev_map` in
`svnreplay.py`). -/
abbrev RevMap := List (Nat × Nat)

/-- `svnreplay.set_rev_map(source_rev, target_rev)`:
`rev_map[int(source_rev)] = int(target_rev)`. -/
def set_rev_map (m : RevMap) (source_rev target_rev : Nat) : RevMap :=
  (source_rev, target_rev) :: m

/-- `svnreplay.get_rev_map(source_rev)`:

    for rev in range(int(source_rev), 0, -1):
        if rev in rev_map:
            return int(rev_map[rev])
    return None

Recursion counts `rev` down from `source_rev` to 1. -/
def get_rev_map (m : RevMap) : Nat → Option Nat
  | 0 => none
  | r + 1 =>
    match m.lookup (r + 1) with
    | some t => some t
    | none => get_rev_map m r

/-- The sequence of `set_rev_map` calls made by the replay loop, applied in
order. -/
def apply_rev_maps : RevMap → List (Nat × Nat) → RevMap
  | m, [] => m
  | m, (s, t) :: rest => apply_rev_maps (set_rev_map m s t) rest

/-! ### `svnreplay.in_ancestors` and the ancestor record -/

/-- One step of an ancestor chain, as appended by
`common.find_svn_ancestors`:
`{'path': .., 'revision': .., 'copyfrom_path': .., 'copyfrom_rev': ..}`. -/
structure Ancestor where
  path : String
  revision : Nat
  copyfrom_path : String
  copyfrom_rev : Nat
  deriving DecidableEq, Repr

/-- The loop of `svnreplay.in_ancestors`, walking
`idx in range(len(ancestors)-1, 0, -1)` (so index 0 is never visited):

    if int(ancestors[idx]['revision']) > ancestor['revision']:
        match = is_child_path(ancestor['path'], ancestors[idx]['path'])
        break
-/
def in_ancestors_go (ancestors : List Ancestor) (ancestor : Ancestor) : Nat → Bool
  | 0 => true
  | idx + 1 =>
    match ancestors[idx + 1]? with
    | some e =>
      if e.revision > ancestor.revision then is_child_path ancestor.path e.path
      else in_ancestors_go ancestors ancestor idx
    | none => true

/-- `svnreplay.in_ancestors(ancestors, ancestor)`. -/
def in_ancestors (ancestors : List Ancestor) (ancestor : Ancestor) : Bool :=
  in_ancestors_go ancestors ancestor (ancestors.length - 1)

/-! ### Log entries and the ancestry tracer (`common.find_svn_ancestors`)

`svnclient.get_first_svn_log_entry` either returns a parsed log entry or
raises `EmptySVNLog` (it never returns a falsy value, so the tracer's
`if not log_entry` branch is unreachable); the external log server is
modelled as an oracle returning `Option SvnLogEntry`, with `none` standing
for the `EmptySVNLog` exception. -/

/-- One changed-path record as parsed by `svnclient.parse_svn_log_xml`:
`{'path', 'kind', 'action', 'copyfrom_path', 'copyfrom_revision'}`.
`copyfrom_path`/`copyfrom_rev` are `None` when the XML attributes are absent
(an `svn log` entry carries either both or neither). -/
structure ChangedPath where
  path : String
  kind : String
  action : Char
  copyfrom_path : Option String
  copyfrom_rev : Option Nat
  deriving DecidableEq, Repr

/-- One log entry as parsed by `svnclient.parse_svn_log_xml` (the fields the
tracer reads). -/
structure SvnLogEntry where
  revision : Nat
  changed_paths : List ChangedPath
  deriving DecidableEq, Repr

/-- `valid_svn_actions`: the known SVN actions `"MARD"` (the constant the
`svnclient` callers reference; `run/svn2svn.py` defines the same constant as
`_valid_svn_actions = "MARD"`). -/
def valid_svn_actions : List Char := ['M', 'A', 'R', 'D']

/-- Stable insertion into a list sorted descending by `path`. -/
def insert_path_desc (d : ChangedPath) : List ChangedPath → List ChangedPath
  | [] => [d]
  | e :: rest =>
    if str_lt d.path e.path then e :: insert_path_desc d rest
    else d :: e :: rest

/-- Python `sorted(changed_paths_temp, key=operator.itemgetter('path'),
reverse=True)`: a stable descending sort by `path` (deepest paths first). -/
def sort_paths_desc : List ChangedPath → List ChangedPath
  | [] => []
  | d :: rest => insert_path_desc d (sort_paths_desc rest)

/-- The external `svn log` service seen by the tracer: maps the
`(cur_path, cur_rev)` of `get_first_svn_log_entry(repos_url+cur_path, 1,
cur_rev)` to its result (`none` = `EmptySVNLog` raised). -/
abbrev SvnOracle := String → Nat → Option SvnLogEntry

/-- Outcome of the inner `for v in changed_paths` scan of
`find_svn_ancestors`. -/
inductive ScanOut where
  | stop
  | follow (anc : Ancestor)
  | fallthrough
  | bad
  deriving DecidableEq, Repr

/-- The inner `for v in changed_paths` loop of `find_svn_ancestors`, walking
the reverse-sorted matches (deepest first):
  * an action outside `valid_svn_actions` raises `UnsupportedSVNAction`
    (`bad`);
  * `D`, or `A`/`R` without a copy-from, breaks with `done = True` (`stop`;
    `no_ancestry` is set when `stop_base_path` is truthy);
  * `A`/`R` with a copy-from appends an ancestor built from
    `cur_path.replace(d['path'], d['copyfrom_path'])` and breaks (`follow`);
  * `M` falls through to the next (shallower) match; exhausting the list
    leaves `done = False` (`fallthrough`). -/
def scan_changed (cur_path : String) (rev : Nat) : List ChangedPath → ScanOut
  | [] => .fallthrough
  | d :: rest =>
    if valid_svn_actions.contains d.action = false then .bad
    else if d.action = 'D' then .stop
    else if d.action = 'R' ∨ d.action = 'A' then
      if truthy_str d.copyfrom_path = false then .stop
      else
        .follow { path := cur_path, revision := rev,
                  copyfrom_path := py_replace cur_path d.path (d.copyfrom_path.getD ""),
                  copyfrom_rev := d.copyfrom_rev.getD 0 }
    else scan_changed cur_path rev rest

/-- Loop state of `find_svn_ancestors`: `cur_path`, `cur_rev`,
`first_iter_done`, the collected `ancestors`. -/
structure FState where
  cur_path : String
  cur_rev : Nat
  first_iter_done : Bool
  ancestors : List Ancestor
  deriving DecidableEq, Repr

/-- Result of `find_svn_ancestors`: the returned ancestor list, or
non-termination (the loop re-enters with unchanged state), or one of the two
exceptions that can escape (`EmptySVNLog` from `get_first_svn_log_entry`,
`UnsupportedSVNAction`). -/
inductive FindResult where
  | ok (ancestors : List Ancestor)
  | nonterm
  | emptyLog
  | unsupported
  deriving DecidableEq, Repr

/-- The post-loop fixup of `find_svn_ancestors`:
`if stop_base_path and no_ancestry: ancestors = []`. -/
def find_finish (stop_base_path : Option String) (no_ancestry : Bool)
    (ancestors : List Ancestor) : List Ancestor :=
  if truthy_str stop_base_path && no_ancestry then [] else ancestors

/-- One iteration of the `while not done` loop of `find_svn_ancestors`:
either the loop exits with a `FindResult` (`Sum.inl`) or continues with the
next state (`Sum.inr`).  Steps, in source order: fetch the first log entry
for `cur_path@cur_rev`; if `stop_base_path is not None and first_iter_done
and is_child_path(cur_path, stop_base_path)` stop; set `first_iter_done`;
filter changed paths to prefixes of `cur_path`; stop if none; reverse-sort
and scan. -/
def find_iter (oracle : SvnOracle) (stop_base_path : Option String)
    (s : FState) : Sum FindResult FState :=
  match oracle s.cur_path s.cur_rev with
  | none => Sum.inl FindResult.emptyLog
  | some log_entry =>
    if stop_base_path.isSome ∧ s.first_iter_done = true ∧
        is_child_path s.cur_path (stop_base_path.getD "") = true then
      Sum.inl (FindResult.ok (find_finish stop_base_path false s.ancestors))
    else
      let changed_paths_temp :=
        log_entry.changed_paths.filter (fun d => is_child_path s.cur_path d.path)
      if changed_paths_temp.isEmpty then
        Sum.inl (FindResult.ok (find_finish stop_base_path false s.ancestors))
      else
        match scan_changed s.cur_path log_entry.revision
            (sort_paths_desc changed_paths_temp) with
        | ScanOut.bad => Sum.inl FindResult.unsupported
        | ScanOut.stop =>
          Sum.inl (FindResult.ok
            (find_finish stop_base_path (truthy_str stop_base_path) s.ancestors))
        | ScanOut.fallthrough => Sum.inr { s with first_iter_done := true }
        | ScanOut.follow anc =>
          Sum.inr { cur_path := anc.copyfrom_path, cur_rev := anc.copyfrom_rev,
                    first_iter_done := true, ancestors := s.ancestors ++ [anc] }

/-- The `while not done` loop of `find_svn_ancestors`, with fuel; exhausting
the fuel (`nonterm`) corresponds to the Python loop never exiting. -/
def find_loop (oracle : SvnOracle) (stop_base_path : Option String) :
    Nat → FState → FindResult
  | 0, _ => FindResult.nonterm
  | fuel + 1, s =>
    match find_iter oracle stop_base_path s with
    | Sum.inl r => r
    | Sum.inr s2 => find_loop oracle stop_base_path fuel s2

/-- `common.find_svn_ancestors(svn_repos_url, start_path, start_rev,
stop_base_path)`. -/
def find_svn_ancestors (oracle : SvnOracle) (start_path : String)
    (start_rev : Nat) (stop_base_path : Option String) (fuel : Nat) :
    FindResult :=
  find_loop oracle stop_base_path fuel
    { cur_path := start_path, cur_rev := start_rev,
      first_iter_done := false, ancestors := [] }

/-! #### Log query construction (`svnclient.run_svn_log` /
`get_first_svn_log_entry`) -/

/-- The query parameters handed to `svn log` by `svnclient.run_svn_log(url,
rev_start, rev_end, limit, stop_on_copy, get_changed_paths, ...)`: the
revision range argument is `'-r', '%s:%s' % (rev_start, rev_end)` — ascending
(oldest first) whenever `rev_start ≤ rev_end`. -/
structure SvnLogQuery where
  stop_on_copy : Bool
  get_changed_paths : Bool
  rev_start : Nat
  rev_end : Nat
  limit : Nat
  deriving DecidableEq, Repr

/-- `svnclient.run_svn_log` argument assembly (the parameters it forwards to
the `svn log` invocation). -/
def run_svn_log_query (rev_start rev_end limit : Nat)
    (stop_on_copy get_changed_paths : Bool) : SvnLogQuery :=
  { stop_on_copy := stop_on_copy, get_changed_paths := get_changed_paths,
    rev_start := rev_start, rev_end := rev_end, limit := limit }

/-- `svnclient.get_first_svn_log_entry(svn_url, rev_start, rev_end)`:
defaults `stop_on_copy=True, get_changed_paths=True` and passes `limit=1`. -/
def get_first_svn_log_entry_query (rev_start rev_end : Nat) : SvnLogQuery :=
  run_svn_log_query rev_start rev_end 1 true true

/-- The log query issued by each iteration of `find_svn_ancestors`:
`get_first_svn_log_entry(svn_repos_url+cur_path, 1, cur_rev)`. -/
def find_ancestors_fetch_query (cur_rev : Nat) : SvnLogQuery :=
  get_first_svn_log_entry_query 1 cur_rev

/-! ### Startup rev-map rebuild (`svnreplay.build_rev_map`) -/

/-- One revision property as parsed by `svnclient.parse_svn_log_xml`:
`{'name': .., 'value': ..}`. -/
structure RevProp where
  name : String
  value : String
  deriving DecidableEq, Repr

/-- A target log entry as consumed by `build_rev_map` (fetched with
`get_changed_paths=False, get_revprops=True`). -/
structure TargetLogEntry where
  revision : Nat
  revprops : List RevProp
  deriving DecidableEq, Repr

/-- The `revprops` dict `build_rev_map` builds for one target entry: the
properties whose name starts with `svn2svn:`. -/
def svn2svn_props (revprops : List RevProp) : List RevProp :=
  revprops.filter (fun v => str_startswith v.name "svn2svn:")

/-- Read of the `revprops` dict: the value of the *last* assignment to `k`
(Python dict semantics), hence a scan of the reversed list. -/
def props_get (d : List RevProp) (k : String) : Option String :=
  (d.reverse.find? (fun v => v.name = k)).map (fun v => v.value)

/-- Worker for `parse_nat`. -/
def parse_nat_go : List Char → Nat → Option Nat
  | [], acc => some acc
  | c :: rest, acc =>
    if c.isDigit then parse_nat_go rest (acc * 10 + (c.toNat - 48))
    else none

/-- Python `int(s)` on a decimal digit string (the conversion
`set_rev_map` applies to the `svn2svn:source_rev` value); `none` models
`ValueError`. -/
def parse_nat (s : String) : Option Nat :=
  match s.data with
  | [] => none
  | l => parse_nat_go l 0

/-- One iteration of `build_rev_map`'s entry loop:

    if log_entry['revprops']:
        revprops = {the svn2svn:-prefixed props}
        if revprops and \
           revprops['svn2svn:source_uuid'] == source_info['repos_uuid'] and \
           revprops['svn2svn:source_url'] == urllib.quote(source_info['url'], ":/"):
            set_rev_map(revprops['svn2svn:source_rev'], log_entry['revision'])

Python `and` short-circuits, so `source_url` is read only when the UUID
matched and `source_rev` only when both matched; a read of a missing key
raises `KeyError` (modelled as `.error`).  `quoted_url` is the
pre-computed `urllib.quote(source_info['url'], ":/")` (urllib is outside
this repository). -/
def build_rev_map_step (source_uuid quoted_url : String) (m : RevMap)
    (e : TargetLogEntry) : Except String RevMap :=
  if e.revprops.isEmpty then Except.ok m
  else
    let d := svn2svn_props e.revprops
    if d.isEmpty then Except.ok m
    else
      match props_get d "svn2svn:source_uuid" with
      | none => Except.error "KeyError: svn2svn:source_uuid"
      | some u =>
        if u = source_uuid then
          match props_get d "svn2svn:source_url" with
          | none => Except.error "KeyError: svn2svn:source_url"
          | some url =>
            if url = quoted_url then
              match props_get d "svn2svn:source_rev" with
              | none => Except.error "KeyError: svn2svn:source_rev"
              | some sr =>
                match parse_nat sr with
                | none => Except.error "ValueError: invalid literal for int()"
                | some n => Except.ok (set_rev_map m n e.revision)
            else Except.ok m
        else Except.ok m

/-- The entry loop of `build_rev_map`. -/
def build_rev_map_go (source_uuid quoted_url : String) :
    RevMap → List TargetLogEntry → Except String RevMap
  | m, [] => Except.ok m
  | m, e :: rest =>
    match build_rev_map_step source_uuid quoted_url m e with
    | Except.ok m2 => build_rev_map_go source_uuid quoted_url m2 rest
    | Except.error err => Except.error err

/-- `svnreplay.build_rev_map(target_url, target_end_rev, source_info)`:
`rev_map = {}` then the entry loop over the target log. -/
def build_rev_map (source_uuid quoted_url : String)
    (entries : List TargetLogEntry) : Except String RevMap :=
  build_rev_map_go source_uuid quoted_url [] entries

/-- Spec-side: whether a target entry matches the configured source (both
tracking revprops present and equal to the configured values). -/
def entry_matches (source_uuid quoted_url : String) (e : TargetLogEntry) : Bool :=
  !(svn2svn_props e.revprops).isEmpty &&
  decide (props_get (svn2svn_props e.revprops) "svn2svn:source_uuid"
    = some source_uuid) &&
  decide (props_get (svn2svn_props e.revprops) "svn2svn:source_url"
    = some quoted_url)

/-- Spec-side: the `(source_rev, target_rev)` insertions contributed by the
matching entries, in log order. -/
def matched_inserts (source_uuid quoted_url : String)
    (entries : List TargetLogEntry) : List (Nat × Nat) :=
  entries.filterMap (fun e =>
    if entry_matches source_uuid quoted_url e then
      (props_get (svn2svn_props e.revprops) "svn2svn:source_rev").bind
        (fun sr => (parse_nat sr).map (fun n => (n, e.revision)))
    else none)

/-- Well-formedness of one target entry with respect to the configured
source: either it carries no `svn2svn:` revprops at all, or it carries
`svn2svn:source_uuid` — and, whenever the comparisons reach them,
`svn2svn:source_url` and a numeric `svn2svn:source_rev`.  Entries written by
the engine itself always carry all three. -/
def entry_wf (source_uuid quoted_url : String) (e : TargetLogEntry) : Prop :=
  (svn2svn_props e.revprops).isEmpty = true ∨
  (∃ u, props_get (svn2svn_props e.revprops) "svn2svn:source_uuid" = some u ∧
    (u = source_uuid →
      ∃ url, props_get (svn2svn_props e.revprops) "svn2svn:source_url" = some url ∧
        (url = quoted_url →
          ∃ sr n, props_get (svn2svn_props e.revprops) "svn2svn:source_rev" = some sr ∧
            parse_nat sr = some n)))

/-- Fixture: a target entry with no revprops at all. -/
def entryNoProps : TargetLogEntry := { revision := 3, revprops := [] }

/-- Fixture: a target entry fully matching source UUID `U` and quoted URL
`Q`, recording source revision 12. -/
def entryFull : TargetLogEntry :=
  { revision := 5,
    revprops := [{ name := "svn2svn:source_uuid", value := "U" },
                 { name := "svn2svn:source_url", value := "Q" },
                 { name := "svn2svn:source_rev", value := "12" }] }

/-- Fixture: a target entry from some other replay (UUID mismatch). -/
def entryOtherUuid : TargetLogEntry :=
  { revision := 6,
    revprops := [{ name := "svn2svn:source_uuid", value := "OTHER" },
                 { name := "svn2svn:source_url", value := "Q2" },
                 { name := "svn2svn:source_rev", value := "44" }] }

/-- Fixture:a target entry carrying only an `svn2svn:keep-revnum` revprop. -/
def entryKeepRevnum : TargetLogEntry :=
  { revision := 7,
    revprops := [{ name := "svn2svn:keep-revnum", value := "7" }] }

/-! ### Log entry processor (`svnreplay.process_svn_log_entry`)

The processor mutates the target working copy through the SVN client; those
calls are modelled as an emitted trace of operations (`WCOp`), and the two
working-copy predicates it branches on (`common.in_svn`, `os.path.exists`)
plus the legacy-server `svnclient.get_kind` fallback are an environment of
oracles.  The call into `do_svn_add` (a separate function) is abstracted as
the single trace element `doSvnAdd` carrying its arguments; its internal
working-copy activity — including the deferred exports it appends to
`export_paths` for copied directories — belongs to that callee and is not
modelled here. -/

/-- One working-copy operation issued by `process_svn_log_entry` (the source
revision and URL, fixed per log entry, are omitted from the trace). -/
inductive WCOp where
  /-- `svnclient.update(path_offset)` (recursive). -/
  | update (path_offset : String)
  /-- `svnclient.update(path_offset, non_recursive=True)`. -/
  | updateNR (path_offset : String)
  /-- `svnclient.remove(path_offset, force=True)`. -/
  | removeForce (path_offset : String)
  /-- `run_svn(["mkdir", p_path])`. -/
  | mkdir (p_path : String)
  /-- `svnclient.export(join_path(source_url, path_offset), source_rev,
  path_offset, force=True)`. -/
  | exportForce (path_offset : String)
  /-- `svnclient.export(..., force=True, non_recursive=True)`. -/
  | exportForceNR (path_offset : String)
  /-- `run_svn(["add", "--parents", path_offset])`. -/
  | addParents (path_offset : String)
  /-- `do_svn_add(source_url, path_offset, source_rev, ancestors, "", "",
  export_paths, path_is_dir, skip_paths)`. -/
  | doSvnAdd (path_offset : String) (skip_paths : List String)
  /-- `sync_svn_props(source_url, source_rev, path_offset)`. -/
  | syncProps (path_offset : String)
  deriving DecidableEq, Repr

/-- The environment of working-copy / filesystem / legacy-kind oracles the
processor branches on. -/
structure WCEnv where
  in_svn : String → Bool
  path_exists : String → Bool
  resolve_kind : String → String

/-- The mutable state threaded through the processor's loop: the caller's
`commit_paths` list, the deferred-export list `export_paths`, and the emitted
operation trace. -/
structure ProcState where
  commit_paths : List String
  export_paths : List String
  ops : List WCOp
  deriving DecidableEq, Repr

/-- `svnreplay.path_in_list(paths, path)`. -/
def path_in_list (paths : List String) (path : String) : Bool :=
  paths.any (fun p => is_child_path path p)

/-- `svnreplay.add_path(paths, path)`: append unless already covered. -/
def add_path (paths : List String) (path : String) : List String :=
  if path_in_list paths path then paths else paths ++ [path]

/-- Python `s.strip()` (whitespace). -/
def py_strip_ws (s : String) : String :=
  py_strip (fun c => c = ' ' || c = '\t' || c = '\n' || c = '\r') s

/-- The `skip_paths` list built for a copy-from add: the offsets of the other
changed paths of the same revision that are children of `path` with action in
`'ARD'`:

    for tmp_d in log_entry['changed_paths']:
        if is_child_path(tmp_path, path) and tmp_d['action'] in 'ARD':
            skip_paths.append(tmp_path[len(source_base):].strip("/"))
-/
def compute_skip_paths (all_changed_paths : List ChangedPath)
    (source_base path : String) : List String :=
  (all_changed_paths.filter (fun t =>
      is_child_path t.path path &&
      (t.action = 'A' || t.action = 'R' || t.action = 'D'))).map
    (fun t => strip_slashes (t.path.drop source_base.length))

/-- The contribution of one changed path `d` to the processor's state:
`Except.ok (commit_paths appended, operations emitted, export_paths
deferred)`, or the raised exception.  Mirrors the body of the
`for d in log_entry['changed_paths']` loop:
  * paths that are not children of `source_base` are skipped;
  * an empty/`none` `kind` is resolved externally (`svnclient.get_kind`),
    then `assert kind in (file, dir)`;
  * `path_offset = path[len(source_base):].strip("/")`; actions outside
    `valid_svn_actions` raise; `path_offset` is appended to `commit_paths`;
  * `R`: if `path_offset` is non-empty and versioned, `update` (dirs only)
    then `remove --force`; then the action becomes `A`;
  * `A` with truthy `copyfrom_revision`: delegate to `do_svn_add` with the
    `skip_paths` of this revision;
  * `A` without: `mkdir` the (parent) directory if missing, defer a recursive
    `export` for directories (`add_path(export_paths, ...)`) or `export` the
    file now, `add --parents` unless versioned, sync props if enabled;
  * `D`: `update` (dirs only) then `remove --force`;
  * `M`: `export --non-recursive` for files / `update --non-recursive` for
    dirs, then sync props if enabled. -/
def changed_path_outcome (env : WCEnv) (keep_prop : Bool) (source_base : String)
    (all_changed_paths : List ChangedPath) (d : ChangedPath) :
    Except String (List String × List WCOp × List String) :=
  if is_child_path d.path source_base = false then Except.ok ([], [], [])
  else
    let kind := if d.kind = "" ∨ d.kind = "none" then env.resolve_kind d.path else d.kind
    if ¬ (kind = "file" ∨ kind = "dir") then
      Except.error "AssertionError: kind"
    else
      let path_is_dir := kind = "dir"
      let path_is_file := kind = "file"
      let path_offset := strip_slashes (d.path.drop source_base.length)
      if valid_svn_actions.contains d.action = false then
        Except.error "UnsupportedSVNAction"
      else
        let pre_ops : List WCOp :=
          if d.action = 'R' ∧ ¬ (path_offset = "") ∧ env.in_svn path_offset = true then
            (if path_is_dir then [WCOp.update path_offset] else []) ++
              [WCOp.removeForce path_offset]
          else []
        let action := if d.action = 'R' then 'A' else d.action
        let prop_ops : List WCOp :=
          if keep_prop then [WCOp.syncProps path_offset] else []
        if action = 'A' then
          if truthy_nat d.copyfrom_rev = true then
            Except.ok ([path_offset],
              pre_ops ++ [WCOp.doSvnAdd path_offset
                (compute_skip_paths all_changed_paths source_base d.path)],
              [])
          else
            let p_path : Option String :=
              if path_is_dir then some path_offset
              else
                let dn := py_strip_ws (py_dirname path_offset)
                if dn = "" then none else some dn
            let mkdir_ops : List WCOp :=
              match p_path with
              | some p =>
                if ¬ (p = "") ∧ env.path_exists p = false then [WCOp.mkdir p] else []
              | none => []
            let add_ops : List WCOp :=
              if env.in_svn path_offset = false then [WCOp.addParents path_offset]
              else []
            if path_is_dir then
              Except.ok ([path_offset],
                pre_ops ++ mkdir_ops ++ add_ops ++ prop_ops, [path_offset])
            else
              Except.ok ([path_offset],
                pre_ops ++ mkdir_ops ++ [WCOp.exportForce path_offset] ++
                  add_ops ++ prop_ops, [])
        else if action = 'D' then
          Except.ok ([path_offset],
            pre_ops ++ (if path_is_dir then [WCOp.update path_offset] else []) ++
              [WCOp.removeForce path_offset], [])
        else if action = 'M' then
          Except.ok ([path_offset],
            pre_ops ++ (if path_is_file then [WCOp.exportForceNR path_offset] else []) ++
              (if path_is_dir then [WCOp.updateNR path_offset] else []) ++ prop_ops,
            [])
        else Except.error "InternalError: unhandled action"

/-- One iteration of the processor's loop, threading the state. -/
def process_changed_path (env : WCEnv) (keep_prop : Bool) (source_base : String)
    (all_changed_paths : List ChangedPath) (st : ProcState) (d : ChangedPath) :
    Except String ProcState :=
  match changed_path_outcome env keep_prop source_base all_changed_paths d with
  | Except.error err => Except.error err
  | Except.ok (commit, ops, defers) =>
    Except.ok { commit_paths := st.commit_paths ++ commit,
                export_paths := defers.foldl add_path st.export_paths,
                ops := st.ops ++ ops }

/-- The `for d in log_entry['changed_paths']` loop. -/
def process_entry_go (env : WCEnv) (keep_prop : Bool) (source_base : String)
    (all_changed_paths : List ChangedPath) :
    ProcState → List ChangedPath → Except String ProcState
  | st, [] => Except.ok st
  | st, d :: rest =>
    match process_changed_path env keep_prop source_base all_changed_paths st d with
    | Except.ok st2 => process_entry_go env keep_prop source_base all_changed_paths st2 rest
    | Except.error err => Except.error err

/-- `svnreplay.process_svn_log_entry(log_entry, ancestors, commit_paths)`:
the per-path loop followed by the deferred directory exports
(`for path_offset in export_paths: svnclient.export(..., force=True)`). -/
def process_svn_log_entry (env : WCEnv) (keep_prop : Bool) (source_base : String)
    (entry : SvnLogEntry) : Except String ProcState :=
  match process_entry_go env keep_prop source_base entry.changed_paths
      { commit_paths := [], export_paths := [], ops := [] } entry.changed_paths with
  | Except.ok st =>
    Except.ok { st with ops := st.ops ++ st.export_paths.map WCOp.exportForce }
  | Except.error err => Except.error err

/-- Spec-side: the operations one changed path contributes. -/
def changed_path_ops (env : WCEnv) (keep_prop : Bool) (source_base : String)
    (all_changed_paths : List ChangedPath) (d : ChangedPath) : List WCOp :=
  match changed_path_outcome env keep_prop source_base all_changed_paths d with
  | Except.ok (_, ops, _) => ops
  | Except.error _ => []

/-- Spec-side: the deferred-export paths one changed path contributes. -/
def changed_path_defer (env : WCEnv) (keep_prop : Bool) (source_base : String)
    (all_changed_paths : List ChangedPath) (d : ChangedPath) : List String :=
  match changed_path_outcome env keep_prop source_base all_changed_paths d with
  | Except.ok (_, _, defers) => defers
  | Except.error _ => []

/-- Stable insertion into a list sorted ascending by `path`. -/
def insert_path_asc (d : ChangedPath) : List ChangedPath → List ChangedPath
  | [] => [d]
  | e :: rest =>
    if str_lt e.path d.path then e :: insert_path_asc d rest
    else d :: e :: rest

/-- Python `sorted(paths, key=operator.itemgetter('path'))` as applied by
`svnclient.parse_svn_log_xml` to each entry's changed paths: a stable
ascending sort by `path` (parents before children, depth-first apply
order). -/
def sort_paths_asc : List ChangedPath → List ChangedPath
  | [] => []
  | d :: rest => insert_path_asc d (sort_paths_asc rest)

/-- Fixture: an environment where everything is versioned and on disk, and
legacy kinds resolve to directories. -/
def envAll : WCEnv :=
  { in_svn := fun _ => true, path_exists := fun _ => true,
    resolve_kind := fun _ => "dir" }

/-- Fixture: only the offset `z` is versioned; nothing is on disk; legacy
kinds resolve to files. -/
def envMixed : WCEnv :=
  { in_svn := fun p => p = "z", path_exists := fun _ => false,
    resolve_kind := fun _ => "file" }

/-- Fixture: a revision that replaces the replay base `/trunk` itself. -/
def entryReplaceRoot : SvnLogEntry :=
  { revision := 20,
    changed_paths := [{ path := "/trunk", kind := "dir", action := 'R',
                        copyfrom_path := none, copyfrom_rev := none }] }

/-- Fixture: a revision adding `/trunk/a` and replacing the versioned
`/trunk/z`. -/
def entryMixed : SvnLogEntry :=
  { revision := 21,
    changed_paths := [{ path := "/trunk/a", kind := "file", action := 'A',
                        copyfrom_path := none, copyfrom_rev := none },
                      { path := "/trunk/z", kind := "file", action := 'R',
                        copyfrom_path := none, copyfrom_rev := none }] }

/-- The chain-link relation on consecutive ancestor steps: each step's
`copyfrom_path@copyfrom_rev` is the query point from which the next (older)
step was produced, so the next step's `path` equals it and the next step's
`revision` (the revision of the log entry answering that query) is at most
that `copyfrom_rev`. -/
def chain_linked (l : List Ancestor) : Prop :=
  l.Chain' (fun a b => b.path = a.copyfrom_path ∧ b.revision ≤ a.copyfrom_rev)

/-! #### Concrete fixtures for the tracer theorems -/

/-- A log entry whose only change on the queried path is a modification. -/
def entryModify : SvnLogEntry :=
  { revision := 5,
    changed_paths := [{ path := "/branches/a", kind := "file", action := 'M',
                        copyfrom_path := none, copyfrom_rev := none }] }

/-- An oracle answering only the query `/branches/a@5`, with `entryModify`. -/
def oracleModify : SvnOracle := fun p r =>
  if p = "/branches/a" ∧ r = 5 then some entryModify else none

/-- The branch-copy entry `A /branches/f (from /trunk@2)` at revision 3. -/
def entryBranchCopy : SvnLogEntry :=
  { revision := 3,
    changed_paths := [{ path := "/branches/f", kind := "dir", action := 'A',
                        copyfrom_path := some "/trunk", copyfrom_rev := some 2 }] }

/-- The plain add `A /trunk/y` at revision 1. -/
def entryTrunkAdd : SvnLogEntry :=
  { revision := 1,
    changed_paths := [{ path := "/trunk/y", kind := "file", action := 'A',
                        copyfrom_path := none, copyfrom_rev := none }] }

/-- An oracle for a file created on `/trunk`, branch-copied to
`/branches/f`. -/
def oracleBranch : SvnOracle := fun p r =>
  if p = "/branches/f/y" ∧ r = 4 then some entryBranchCopy
  else if p = "/trunk/y" ∧ r = 2 then some entryTrunkAdd
  else none

/-- The single ancestor step the tracer collects for
`/branches/f/y@4` against `stop_base_path = /trunk`. -/
def ancBranch : Ancestor :=
  { path := "/branches/f/y", revision := 3,
    copyfrom_path := "/trunk/y", copyfrom_rev := 2 }

/-! ### Theorems: C7, C8, C9 -/

/-- A successful lookup comes from an entry of the list. -/
theorem lookup_eq_some_mem {m : RevMap} {k v : Nat}
    (h : m.lookup k = some v) : (k, v) ∈ m := by
  induction m with
  | nil => cases h
  | cons a rest ih =>
    obtain ⟨x, y⟩ := a
    by_cases e : k = x
    · subst e
      simp [List.lookup] at h
      simp [h]
    · simp [List.lookup, beq_false_of_ne e] at h
      exact List.mem_cons_of_mem _ (ih h)

/-- A present key makes `lookup` succeed. -/
theorem mem_lookup_isSome {m : RevMap} {k v : Nat}
    (h : (k, v) ∈ m) : ∃ w, m.lookup k = some w := by
  induction m with
  | nil => cases h
  | cons a rest ih =>
    obtain ⟨x, y⟩ := a
    by_cases e : k = x
    · subst e
      exact ⟨y, by simp [List.lookup]⟩
    · rcases List.mem_cons.mp h with h1 | h1
      · cases h1
        exact absurd rfl e
      · obtain ⟨w, hw⟩ := ih h1
        exact ⟨w, by simp [List.lookup, beq_false_of_ne e, hw]⟩


/-- C7: after each svn log call the chunk length is adapted: elapsed < 10 s
doubles the chunk capped at 10000, elapsed > 20 s halves it floored at 10, and
a chunk length within [10, 10000] stays within [10, 10000]. -/
theorem chunk_adaptation_bounds (chunk_length : Nat) (duration : ℚ)
    (hlo : log_min_chunk_length ≤ chunk_length)
    (hhi : chunk_length ≤ log_max_chunk_length) :
    (duration < 10 →
      adapt_chunk_length chunk_length duration = min 10000 (chunk_length * 2)) ∧
    (duration > 20 →
      adapt_chunk_length chunk_length duration = max 10 (chunk_length / 2)) ∧
    log_min_chunk_length ≤ adapt_chunk_length chunk_length duration ∧
    adapt_chunk_length chunk_length duration ≤ log_max_chunk_length := by
  simp only [log_min_chunk_length, log_max_chunk_length] at hlo hhi ⊢
  unfold adapt_chunk_length log_duration_threshold log_min_chunk_length log_max_chunk_length
  refine ⟨?_, ?_, ?_, ?_⟩
  · intro h
    simp [h]
  · intro h
    have h10 : ¬ (duration < 10) := by linarith
    have h20 : duration > 10 * 2 := by linarith
    simp [h10, h20]
  · split
    · omega
    · split
      · omega
      · omega
  · split
    · omega
    · split
      · omega
      · omega

/-- Witness for `chunk_adaptation_bounds` at `chunk_length = 10`,
`duration = 5`. -/
theorem chunk_adaptation_bounds_witness :
    (((5 : ℚ) < 10 →
      adapt_chunk_length 10 5 = min 10000 (10 * 2)) ∧
    ((5 : ℚ) > 20 →
      adapt_chunk_length 10 5 = max 10 (10 / 2)) ∧
    log_min_chunk_length ≤ adapt_chunk_length 10 5 ∧
    adapt_chunk_length 10 5 ≤ log_max_chunk_length) :=
  chunk_adaptation_bounds 10 5 (by decide) (by decide)

/-- C8 counterexample: with `cur_rev = 1`, `chunk_length = 10`,
`last_rev = 100` and no ancestor boundary, an empty chunk advances `cur_rev`
to `min(last_rev, cur_rev + chunk) + 1 = 12`, not to `cur_rev + chunk = 11`
as the claim states. -/
theorem iter_empty_advance_counterexample :
    iter_empty_next_rev 1 10 100 none ≠ 1 + 10 ∧
    iter_empty_next_rev 1 10 100 none = 12 := by
  decide

/-- C8 (amended): when a chunk returns no entries while `cur_rev` has not
passed `last_rev` (and is below any current ancestor boundary), `cur_rev`
advances to one past the end of the queried window,
`min(last_rev, cur_rev + chunk_length)` clamped by the ancestor boundary,
plus one: a strict advance of at most `chunk_length + 1`.  There is no
separate skip factor; window growth comes only from the duration-based chunk
adaptation (`adapt_chunk_length`). -/
theorem iter_empty_advance (cur_rev chunk_length last_rev : Nat)
    (anc : Option Nat)
    (hcur : cur_rev ≤ last_rev)
    (hanc : ∀ a, anc = some a → cur_rev < a) :
    iter_empty_next_rev cur_rev chunk_length last_rev anc
      = iter_stop_rev cur_rev chunk_length last_rev anc + 1 ∧
    cur_rev < iter_empty_next_rev cur_rev chunk_length last_rev anc ∧
    iter_empty_next_rev cur_rev chunk_length last_rev anc
      ≤ cur_rev + chunk_length + 1 ∧
    (anc = none →
      iter_empty_next_rev cur_rev chunk_length last_rev anc
        = min last_rev (cur_rev + chunk_length) + 1) := by
  refine ⟨rfl, ?_, ?_, ?_⟩
  · cases anc with
    | none =>
      simp only [iter_empty_next_rev, iter_stop_rev]
      omega
    | some a =>
      have := hanc a rfl
      simp only [iter_empty_next_rev, iter_stop_rev]
      omega
  · cases anc <;> simp only [iter_empty_next_rev, iter_stop_rev] <;> omega
  · intro h
    subst h
    simp only [iter_empty_next_rev, iter_stop_rev]

/-- Witness for `iter_empty_advance` at `cur_rev = 95`, `chunk_length = 10`,
`last_rev = 100`, no ancestor boundary. -/
theorem iter_empty_advance_witness :
    iter_empty_next_rev 95 10 100 none = iter_stop_rev 95 10 100 none + 1 ∧
    95 < iter_empty_next_rev 95 10 100 none ∧
    iter_empty_next_rev 95 10 100 none ≤ 95 + 10 + 1 ∧
    (none = (none : Option Nat) →
      iter_empty_next_rev 95 10 100 none = min 100 (95 + 10) + 1) :=
  iter_empty_advance 95 10 100 none (by decide) (fun a h => Option.noConfusion h)

/-- C9 counterexample: the argument `"-x@1"` contains `@` but, since it starts
with `-`, `run_svn`'s at-sign masking leaves it unchanged rather than
suffixing a literal `@`. -/
theorem mask_atsign_counterexample :
    str_contains "-x@1" '@' = true ∧
    mask_atsign ["-x@1"] = ["-x@1"] ∧
    ("-x@1" : String) ≠ "-x@1" ++ "@" := by
  refine ⟨by decide, ?_, by decide⟩
  decide

/-- C9 (amended): with at-sign masking requested, an argument containing `@`
is suffixed with a literal `@` exactly when its first character is neither
`-` nor `"`; every other argument is passed through unchanged. -/
theorem mask_atsign_spec (args : List String) (i : Nat) (h : i < args.length) :
    (mask_atsign args).length = args.length ∧
    ∀ hi : i < (mask_atsign args).length,
      (mask_atsign args).get ⟨i, hi⟩ =
        (if str_contains (args.get ⟨i, h⟩) '@' = true ∧
            ¬((args.get ⟨i, h⟩).data.headD ' ' = '-' ∨
              (args.get ⟨i, h⟩).data.headD ' ' = '"')
         then args.get ⟨i, h⟩ ++ "@" else args.get ⟨i, h⟩) := by
  constructor
  · simp [mask_atsign]
  · intro hi
    simp only [mask_atsign, List.get_eq_getElem, List.getElem_map]
    by_cases hc : str_contains args[i] '@' = true ∧
        ¬(args[i].data.headD ' ' = '-' ∨ args[i].data.headD ' ' = '"')
    · rw [if_pos hc]
      obtain ⟨h1, h2⟩ := hc
      obtain ⟨h2a, h2b⟩ := not_or.mp h2
      simp only [mask_atsign_arg, h1, Bool.true_and]
      rw [if_pos]
      simp only [Bool.not_eq_true', Bool.or_eq_false_iff, decide_eq_false_iff_not]
      exact ⟨h2a, h2b⟩
    · rw [if_neg hc]
      unfold mask_atsign_arg
      split
      · next hcond =>
        exfalso
        apply hc
        simp only [Bool.and_eq_true, Bool.not_eq_true', Bool.or_eq_false_iff,
          decide_eq_false_iff_not] at hcond
        exact ⟨hcond.1, not_or.mpr ⟨hcond.2.1, hcond.2.2⟩⟩
      · rfl

/-- C2: `get_rev_map(s)` returns the target revision stored for the largest
mapped source revision `r ≤ s`, and `None` when no mapped revision is `≤ s`.
(The rev-map states built by the program only hold source revisions ≥ 1,
which is the `hpos` hypothesis; SVN revision numbers start at 1.) -/
theorem get_rev_map_spec (m : RevMap) (s : Nat)
    (hpos : ∀ p ∈ m, 0 < p.1) :
    (get_rev_map m s = none → ∀ p ∈ m, ¬ p.1 ≤ s) ∧
    ((∀ p ∈ m, ¬ p.1 ≤ s) → get_rev_map m s = none) ∧
    (∀ t, get_rev_map m s = some t →
      ∃ r, r ≤ s ∧ m.lookup r = some t ∧ ∀ p ∈ m, p.1 ≤ s → p.1 ≤ r) := by
  induction s with
  | zero =>
    refine ⟨fun _ p hp hle => ?_, fun _ => rfl, fun t ht => by cases ht⟩
    have := hpos p hp
    omega
  | succ n ih =>
    rcases hl : m.lookup (n + 1) with _ | t0
    · have hget : get_rev_map m (n + 1) = get_rev_map m n := by
        simp [get_rev_map, hl]
      have hnotmem : ∀ v : Nat, (n + 1, v) ∉ m := by
        intro v hv
        obtain ⟨w, hw⟩ := mem_lookup_isSome hv
        rw [hl] at hw
        cases hw
      refine ⟨?_, ?_, ?_⟩
      · intro h p hp hle
        rcases Nat.lt_or_ge p.1 (n + 1) with hlt | hge
        · exact (ih.1 (hget ▸ h) p hp) (Nat.lt_succ_iff.mp hlt)
        · have : p.1 = n + 1 := Nat.le_antisymm hle hge
          exact hnotmem p.2 (by rw [← this]; exact hp)
      · intro h
        rw [hget]
        exact ih.2.1 (fun p hp hle => h p hp (Nat.le_succ_of_le hle))
      · intro t ht
        rw [hget] at ht
        obtain ⟨r, hr1, hr2, hr3⟩ := ih.2.2 t ht
        refine ⟨r, Nat.le_succ_of_le hr1, hr2, fun p hp hle => ?_⟩
        rcases Nat.lt_or_ge p.1 (n + 1) with hlt | hge
        · exact hr3 p hp (Nat.lt_succ_iff.mp hlt)
        · have : p.1 = n + 1 := Nat.le_antisymm hle hge
          exact absurd (by rw [← this]; exact hp) (hnotmem p.2)
    · have hget : get_rev_map m (n + 1) = some t0 := by
        simp [get_rev_map, hl]
      refine ⟨?_, ?_, ?_⟩
      · intro h
        rw [hget] at h
        cases h
      · intro h
        exact absurd (fun hle => h _ (lookup_eq_some_mem hl) hle) (by simp)
      · intro t ht
        rw [hget] at ht
        cases ht
        exact ⟨n + 1, Nat.le_refl _, hl, fun p _ hle => hle⟩

/-- Witness for `get_rev_map_spec` on the map `{5 ↦ 9, 3 ↦ 7}` at `s = 6`. -/
theorem get_rev_map_spec_witness :
    (get_rev_map [(5, 9), (3, 7)] 6 = none → ∀ p ∈ [(5, 9), (3, 7)], ¬ p.1 ≤ 6) ∧
    ((∀ p ∈ [(5, 9), (3, 7)], ¬ p.1 ≤ 6) → get_rev_map [(5, 9), (3, 7)] 6 = none) ∧
    (∀ t, get_rev_map [(5, 9), (3, 7)] 6 = some t →
      ∃ r, r ≤ 6 ∧ List.lookup r [(5, 9), (3, 7)] = some t ∧
        ∀ p ∈ [(5, 9), (3, 7)], p.1 ≤ 6 → p.1 ≤ r) :=
  get_rev_map_spec [(5, 9), (3, 7)] 6 (by decide)

/-- `apply_rev_maps` prepends the insertions in reverse order. -/
theorem apply_rev_maps_eq (ins : List (Nat × Nat)) :
    ∀ m : RevMap, apply_rev_maps m ins = ins.reverse ++ m := by
  induction ins with
  | nil => intro m; rfl
  | cons a rest ih =>
    intro m
    obtain ⟨s, t⟩ := a
    simp only [apply_rev_maps, set_rev_map, ih, List.reverse_cons, List.append_assoc,
      List.singleton_append]

/-- `lookup` on a cons cell whose key matches. -/
theorem lookup_cons_self {k v : Nat} {rest : RevMap} :
    List.lookup k ((k, v) :: rest) = some v := by
  simp [List.lookup]

/-- `lookup` on a cons cell whose key differs. -/
theorem lookup_cons_ne {k x v : Nat} {rest : RevMap} (h : ¬ k = x) :
    List.lookup k ((x, v) :: rest) = List.lookup k rest := by
  simp [List.lookup, beq_false_of_ne h]

/-- Monotone lookup on an association list whose pairs strictly decrease
front-to-back in both components. -/
theorem assoc_lookup_mono (m : RevMap)
    (hdec : m.Pairwise (fun a b => b.1 < a.1 ∧ b.2 < a.2)) :
    ∀ s1 s2 t1 t2 : Nat, s1 < s2 →
      m.lookup s1 = some t1 → m.lookup s2 = some t2 → t1 < t2 := by
  induction m with
  | nil => intro _ _ _ _ _ h1; cases h1
  | cons a rest ih =>
    obtain ⟨k, v⟩ := a
    rw [List.pairwise_cons] at hdec
    intro s1 s2 t1 t2 h12 h1 h2
    by_cases e2 : s2 = k
    · have e1 : ¬ s1 = k := by omega
      rw [e2, lookup_cons_self] at h2
      have hv := Option.some.inj h2
      rw [lookup_cons_ne e1] at h1
      have hm := lookup_eq_some_mem h1
      have := (hdec.1 _ hm).2
      omega
    · by_cases e1 : s1 = k
      · rw [lookup_cons_ne e2] at h2
        have hm := lookup_eq_some_mem h2
        have := (hdec.1 _ hm).1
        omega
      · rw [lookup_cons_ne e1] at h1
        rw [lookup_cons_ne e2] at h2
        exact ih hdec.2 s1 s2 t1 t2 h12 h1 h2

/-- C3: after any sequence of `set_rev_map` insertions with strictly
increasing source and target revisions (as performed by the replay loop), the
rev map is monotone: `s1 < s2` present in the map implies
`map(s1) < map(s2)`. -/
theorem rev_map_monotone (ins : List (Nat × Nat))
    (hinc : ins.Chain' (fun a b => a.1 < b.1 ∧ a.2 < b.2))
    (s1 s2 t1 t2 : Nat) (h12 : s1 < s2)
    (h1 : (apply_rev_maps [] ins).lookup s1 = some t1)
    (h2 : (apply_rev_maps [] ins).lookup s2 = some t2) :
    t1 < t2 := by
  rw [apply_rev_maps_eq, List.append_nil] at h1 h2
  have hpair : ins.Pairwise (fun a b => a.1 < b.1 ∧ a.2 < b.2) := by
    haveI : IsTrans (Nat × Nat) (fun a b => a.1 < b.1 ∧ a.2 < b.2) :=
      ⟨fun _ _ _ hab hbc => ⟨Nat.lt_trans hab.1 hbc.1, Nat.lt_trans hab.2 hbc.2⟩⟩
    exact List.chain'_iff_pairwise.mp hinc
  have hdec : ins.reverse.Pairwise (fun a b => b.1 < a.1 ∧ b.2 < a.2) := by
    rw [List.pairwise_reverse]
    exact hpair
  exact assoc_lookup_mono ins.reverse hdec s1 s2 t1 t2 h12 h1 h2

/-- Witness for `rev_map_monotone` on insertions
`(1,2), (3,4), (7,9)` with `s1 = 3 < s2 = 7`. -/
theorem rev_map_monotone_witness : (4 : Nat) < 9 :=
  rev_map_monotone [(1, 2), (3, 4), (7, 9)]
    (by norm_num [List.chain'_cons, List.chain'_singleton]) 3 7 4 9 (by decide)
    (by decide) (by decide)

/-- C10: `in_ancestors` is `true` on an empty or singleton chain, never
inspects element 0, and equals the verdict of the first element (scanning
from the end of the chain down to index 1) whose revision exceeds the
candidate's revision — `is_child_path` of the candidate's path against that
element's path — defaulting to `true` when no such element exists. -/
theorem in_ancestors_spec (ancestors : List Ancestor) (a x y : Ancestor)
    (rest : List Ancestor) :
    in_ancestors [] a = true ∧
    in_ancestors [x] a = true ∧
    in_ancestors (x :: rest) a = in_ancestors (y :: rest) a ∧
    (in_ancestors ancestors a =
      match (ancestors.drop 1).reverse.find?
          (fun e => decide (a.revision < e.revision)) with
      | some e => is_child_path a.path e.path
      | none => true) := by
  have go_eq : ∀ (l : List Ancestor) (idx : Nat), idx < l.length →
      in_ancestors_go l a idx =
        match ((l.drop 1).take idx).reverse.find?
            (fun e => decide (a.revision < e.revision)) with
        | some e => is_child_path a.path e.path
        | none => true := by
    intro l idx
    induction idx with
    | zero => intro _; simp [in_ancestors_go]
    | succ i ihh =>
      intro hlt
      have hi : i + 1 < l.length := hlt
      have hdrop : i < (l.drop 1).length := by
        rw [List.length_drop]
        omega
      have hget : (l.drop 1)[i] = l[i + 1] := by
        rw [List.getElem_drop]
        congr 1
        omega
      have htake : (l.drop 1).take (i + 1)
          = (l.drop 1).take i ++ [(l.drop 1)[i]] := by
        rw [List.take_succ]
        simp [List.getElem?_eq_getElem hdrop, List.getElem?_eq_getElem hi]
      rw [htake, List.reverse_append]
      simp only [List.reverse_singleton, List.singleton_append]
      rw [hget]
      simp only [in_ancestors_go, List.getElem?_eq_getElem hi]
      by_cases hrev : a.revision < l[i + 1].revision
      · rw [List.find?_cons_of_pos _ (by simpa using hrev)]
        simp only [gt_iff_lt, if_pos hrev]
      · rw [List.find?_cons_of_neg _ (by simpa using hrev)]
        rw [if_neg (by simpa using hrev)]
        exact ihh (by omega)
  refine ⟨rfl, rfl, ?_, ?_⟩
  · show in_ancestors_go (x :: rest) a ((x :: rest).length - 1)
       = in_ancestors_go (y :: rest) a ((y :: rest).length - 1)
    rcases rest with _ | ⟨b, rest2⟩
    · rfl
    · rw [go_eq (x :: b :: rest2) ((x :: b :: rest2).length - 1) (by simp),
          go_eq (y :: b :: rest2) ((y :: b :: rest2).length - 1) (by simp)]
      simp
  · rcases ancestors with _ | ⟨b, rest2⟩
    · rfl
    · show in_ancestors_go (b :: rest2) a ((b :: rest2).length - 1) = _
      rw [go_eq (b :: rest2) ((b :: rest2).length - 1) (by simp)]
      simp [List.take_length]

/-- Witness for `mask_atsign_spec` on `["a@b.txt"]` at index 0. -/
theorem mask_atsign_spec_witness :
    (mask_atsign ["a@b.txt"]).length = ["a@b.txt"].length ∧
    ∀ hi : 0 < (mask_atsign ["a@b.txt"]).length,
      (mask_atsign ["a@b.txt"]).get ⟨0, hi⟩ =
        (if str_contains (["a@b.txt"].get ⟨0, by decide⟩) '@' = true ∧
            ¬((["a@b.txt"].get ⟨0, by decide⟩).data.headD ' ' = '-' ∨
              (["a@b.txt"].get ⟨0, by decide⟩).data.headD ' ' = '"')
         then ["a@b.txt"].get ⟨0, by decide⟩ ++ "@"
         else ["a@b.txt"].get ⟨0, by decide⟩) :=
  mask_atsign_spec ["a@b.txt"] 0 (by decide)

/-- A `follow` outcome of the inner scan carries the current query point:
the recorded step's `path` is `cur_path` and its `revision` is the fetched
entry's revision. -/
theorem scan_changed_follow_shape (cur_path : String) (rev : Nat) :
    ∀ (cps : List ChangedPath) (anc : Ancestor),
      scan_changed cur_path rev cps = ScanOut.follow anc →
      anc.path = cur_path ∧ anc.revision = rev := by
  intro cps
  induction cps with
  | nil => intro anc h; cases h
  | cons d rest ih =>
    intro anc h
    unfold scan_changed at h
    split at h
    · cases h
    · split at h
      · cases h
      · split at h
        · split at h
          · cases h
          · cases h
            exact ⟨rfl, rfl⟩
        · exact ih anc h

/-- Soundness of the tracer loop: starting from a state whose collected
ancestors are chain-linked and end at the current query point, any list the
loop returns is empty or chain-linked with its last step's `copyfrom_path`
inside `B`. -/
theorem find_loop_sound (oracle : SvnOracle) (B : String) (hB : B ≠ "")
    (hmatch : ∀ p r e, oracle p r = some e →
      (e.changed_paths.filter (fun d => is_child_path p d.path)).isEmpty = false)
    (hrev : ∀ p r e, oracle p r = some e → e.revision ≤ r) :
    ∀ (fuel : Nat) (s : FState),
      chain_linked s.ancestors →
      (∀ a, s.ancestors.getLast? = some a →
        a.copyfrom_path = s.cur_path ∧ a.copyfrom_rev = s.cur_rev) →
      ∀ l, find_loop oracle (some B) fuel s = FindResult.ok l →
        l = [] ∨ (chain_linked l ∧
          ∀ a, l.getLast? = some a → is_child_path a.copyfrom_path B = true) := by
  intro fuel
  induction fuel with
  | zero => intro s _ _ l h; cases h
  | succ n ih =>
    intro s hchain hlast l h
    unfold find_loop at h
    cases hfetch : oracle s.cur_path s.cur_rev with
    | none =>
      have hiter : find_iter oracle (some B) s = Sum.inl FindResult.emptyLog := by
        simp only [find_iter, hfetch]
      rw [hiter] at h
      simp at h
    | some e =>
      by_cases hstop : (some B : Option String).isSome = true ∧
          s.first_iter_done = true ∧
          is_child_path s.cur_path ((some B : Option String).getD "") = true
      · have hiter : find_iter oracle (some B) s
            = Sum.inl (FindResult.ok (find_finish (some B) false s.ancestors)) := by
          simp only [find_iter, hfetch]
          rw [if_pos hstop]
        rw [hiter] at h
        simp only [find_finish, Bool.and_false, Bool.false_eq_true, if_false] at h
        have hl : s.ancestors = l := by
          simpa using h
        rcases hemp : s.ancestors with _ | ⟨a0, rest⟩
        · left
          rw [← hl, hemp]
        · right
          rw [← hl]
          refine ⟨hchain, fun a ha => ?_⟩
          have := (hlast a ha).1
          rw [this]
          simpa using hstop.2.2
      · have hne := hmatch _ _ _ hfetch
        have hiter : find_iter oracle (some B) s
            = match scan_changed s.cur_path e.revision
                (sort_paths_desc (e.changed_paths.filter
                  (fun d => is_child_path s.cur_path d.path))) with
              | ScanOut.bad => Sum.inl FindResult.unsupported
              | ScanOut.stop =>
                Sum.inl (FindResult.ok
                  (find_finish (some B) (truthy_str (some B)) s.ancestors))
              | ScanOut.fallthrough => Sum.inr { s with first_iter_done := true }
              | ScanOut.follow anc =>
                Sum.inr { cur_path := anc.copyfrom_path, cur_rev := anc.copyfrom_rev,
                          first_iter_done := true, ancestors := s.ancestors ++ [anc] } := by
          simp only [find_iter, hfetch]
          rw [if_neg hstop]
          simp only [hne, Bool.false_eq_true, if_false]
        rcases hscan : scan_changed s.cur_path e.revision
            (sort_paths_desc (e.changed_paths.filter
              (fun d => is_child_path s.cur_path d.path))) with _ | anc | _ | _
        · rw [hiter, hscan] at h
          simp at h
          left
          have : truthy_str (some B) = true := by
            simp [truthy_str, hB]
          simpa [find_finish, this] using h.symm
        · rw [hiter, hscan] at h
          simp only [] at h
          obtain ⟨hpath, hrevv⟩ := scan_changed_follow_shape _ _ _ _ hscan
          apply ih { cur_path := anc.copyfrom_path, cur_rev := anc.copyfrom_rev,
                     first_iter_done := true, ancestors := s.ancestors ++ [anc] }
          · show chain_linked (s.ancestors ++ [anc])
            unfold chain_linked at hchain ⊢
            rw [List.chain'_append]
            refine ⟨hchain, List.chain'_singleton _, fun x hx y hy => ?_⟩
            have hy2 : y = anc := by
              have := hy
              simp at this
              exact this.symm
            have hx2 := hlast x (by simpa using hx)
            subst hy2
            constructor
            · rw [hpath, hx2.1]
            · rw [hrevv, hx2.2]
              exact hrev _ _ _ hfetch
          · intro a ha
            have : a = anc := by
              have h2 := ha
              simp [List.getLast?_concat] at h2
              exact h2.symm
            subst this
            exact ⟨rfl, rfl⟩
          · exact h
        · rw [hiter, hscan] at h
          simp only [] at h
          apply ih { s with first_iter_done := true } hchain _ l h
          intro a ha
          exact hlast a ha
        · rw [hiter, hscan] at h
          simp at h

/-- C1: for every `find_svn_ancestors(repo, start_path, start_rev,
stop_base_path = B)` call (over any log oracle that answers each query with a
log entry of revision at most the queried revision and containing at least
one changed path that is a prefix of the queried path):
  * any returned chain is empty or linked — each step's
    `copyfrom_path@copyfrom_rev` is the query point producing the next step —
    with the last (oldest) step's `copyfrom_path` equal to `B` or a
    descendant of it;
  * a delete, or an add/replace without copy-from, selected as the deepest
    match ends the backward walk (`ScanOut.stop`);
  * and an iteration whose walk ends that way returns the empty chain
    (`no_ancestry` clears the collected ancestors). -/
theorem find_ancestors_chain_sound (oracle : SvnOracle) (B : String)
    (hB : B ≠ "")
    (hmatch : ∀ p r e, oracle p r = some e →
      (e.changed_paths.filter (fun d => is_child_path p d.path)).isEmpty = false)
    (hrev : ∀ p r e, oracle p r = some e → e.revision ≤ r)
    (start_path : String) (start_rev fuel : Nat) (l : List Ancestor)
    (h : find_svn_ancestors oracle start_path start_rev (some B) fuel
          = FindResult.ok l) :
    (l = [] ∨ (chain_linked l ∧
      ∀ a, l.getLast? = some a → is_child_path a.copyfrom_path B = true)) ∧
    (∀ (cur_path : String) (rev : Nat) (d : ChangedPath)
        (rest : List ChangedPath),
      d.action = 'D' ∨ ((d.action = 'R' ∨ d.action = 'A') ∧
          truthy_str d.copyfrom_path = false) →
      scan_changed cur_path rev (d :: rest) = ScanOut.stop) ∧
    (∀ (s : FState) (e : SvnLogEntry),
      oracle s.cur_path s.cur_rev = some e →
      scan_changed s.cur_path e.revision
          (sort_paths_desc (e.changed_paths.filter
            (fun d2 => is_child_path s.cur_path d2.path)))
        = ScanOut.stop →
      ¬ ((some B : Option String).isSome = true ∧ s.first_iter_done = true ∧
          is_child_path s.cur_path ((some B : Option String).getD "") = true) →
      find_iter oracle (some B) s = Sum.inl (FindResult.ok [])) := by
  refine ⟨find_loop_sound oracle B hB hmatch hrev fuel
    { cur_path := start_path, cur_rev := start_rev,
      first_iter_done := false, ancestors := [] }
    List.chain'_nil (fun a ha => by simp at ha) l h, ?_, ?_⟩
  · intro cur_path rev d rest hd
    have hvD : valid_svn_actions.contains 'D' = true := rfl
    have hvR : valid_svn_actions.contains 'R' = true := rfl
    have hvA : valid_svn_actions.contains 'A' = true := rfl
    have hmD : 'D' ∈ valid_svn_actions := by decide
    have hmR : 'R' ∈ valid_svn_actions := by decide
    have hmA : 'A' ∈ valid_svn_actions := by decide
    rcases hd with hD | ⟨hRA, hcf⟩
    · simp [scan_changed, hD, hvD, hmD]
    · rcases hRA with hR | hA
      · simp [scan_changed, hR, hvR, hmR, hcf]
      · simp [scan_changed, hA, hvA, hmA, hcf]
  · intro s e hfetch hscan hstop
    have hne := hmatch _ _ _ hfetch
    simp only [find_iter, hfetch]
    rw [if_neg hstop]
    simp only [hne, Bool.false_eq_true, if_false]
    rw [hscan]
    have htr : truthy_str (some B) = true := by
      simp [truthy_str, hB]
    simp [find_finish, htr]

/-- Witness for `find_ancestors_chain_sound`: tracing `/branches/f/y@4` back
to `stop_base_path = /trunk` over `oracleBranch` returns the single linked
step `ancBranch`, whose `copyfrom_path = /trunk/y` is a descendant of
`/trunk`; and over the same oracle a walk ending on a delete or copy-less
add/replace would return the empty chain. -/
theorem find_ancestors_chain_sound_witness :
    ([ancBranch] = [] ∨ (chain_linked [ancBranch] ∧
      ∀ a, [ancBranch].getLast? = some a →
        is_child_path a.copyfrom_path "/trunk" = true)) ∧
    (∀ (cur_path : String) (rev : Nat) (d : ChangedPath)
        (rest : List ChangedPath),
      d.action = 'D' ∨ ((d.action = 'R' ∨ d.action = 'A') ∧
          truthy_str d.copyfrom_path = false) →
      scan_changed cur_path rev (d :: rest) = ScanOut.stop) ∧
    (∀ (s : FState) (e : SvnLogEntry),
      oracleBranch s.cur_path s.cur_rev = some e →
      scan_changed s.cur_path e.revision
          (sort_paths_desc (e.changed_paths.filter
            (fun d2 => is_child_path s.cur_path d2.path)))
        = ScanOut.stop →
      ¬ ((some "/trunk" : Option String).isSome = true ∧ s.first_iter_done = true ∧
          is_child_path s.cur_path ((some "/trunk" : Option String).getD "") = true) →
      find_iter oracleBranch (some "/trunk") s = Sum.inl (FindResult.ok [])) :=
  find_ancestors_chain_sound oracleBranch "/trunk" (by decide)
    (by
      intro p r e h
      unfold oracleBranch at h
      split at h
      next hc =>
        obtain ⟨hp, hr⟩ := hc
        cases h
        subst hp
        decide
      next =>
        split at h
        next hc =>
          obtain ⟨hp, hr⟩ := hc
          cases h
          subst hp
          decide
        next => cases h)
    (by
      intro p r e h
      unfold oracleBranch at h
      split at h
      next hc =>
        obtain ⟨hp, hr⟩ := hc
        cases h
        subst hr
        decide
      next =>
        split at h
        next hc =>
          obtain ⟨hp, hr⟩ := hc
          cases h
          subst hr
          decide
        next => cases h)
    "/branches/f/y" 4 10 [ancBranch] (by decide)

/-- C4 counterexample: over `oracleModify` the only matching change for
`/branches/a@5` has action `M`, and the tracer's next state keeps
`cur_rev = 5` unchanged — it is not the claimed `entry.rev - 1 = 4` — so the
loop re-fetches the same entry forever (`nonterm` for any fuel; shown at
fuel 10).  Moreover the per-iteration fetch is
`get_first_svn_log_entry(url, 1, cur_rev)`, an ascending (oldest-first)
`1:cur_rev` query, not a newest-first `cur_rev:1` query. -/
theorem find_ancestors_modify_counterexample :
    oracleModify "/branches/a" 5 = some entryModify ∧
    entryModify.changed_paths.map (fun d => d.action) = ['M'] ∧
    find_iter oracleModify (some "/trunk")
        { cur_path := "/branches/a", cur_rev := 5,
          first_iter_done := true, ancestors := [] }
      = Sum.inr { cur_path := "/branches/a", cur_rev := 5,
                  first_iter_done := true, ancestors := [] } ∧
    ({ cur_path := "/branches/a", cur_rev := 5,
       first_iter_done := true, ancestors := [] } : FState)
      ≠ { cur_path := "/branches/a", cur_rev := entryModify.revision - 1,
          first_iter_done := true, ancestors := [] } ∧
    find_svn_ancestors oracleModify "/branches/a" 5 (some "/trunk") 10
      = FindResult.nonterm ∧
    (find_ancestors_fetch_query 5).rev_start = 1 ∧
    (find_ancestors_fetch_query 5).rev_end = 5 ∧
    ¬ ((find_ancestors_fetch_query 5).rev_start = 5 ∧
       (find_ancestors_fetch_query 5).rev_end = 1) := by
  decide

/-- C4 (amended): each iteration of the tracer fetches the first entry of the
ascending stop-on-copy changed-paths query `svn log -r 1:cur_rev --limit 1`
for `cur_path@cur_rev` (the oldest entry at or below `cur_rev`, i.e. the
creation/copy boundary of the path's current incarnation); and when the scan
over the matched changes falls through — in particular when every matched
change has action `M` — the loop continues with `cur_path` and `cur_rev`
unchanged (only `first_iter_done` is set), not with `cur_rev = entry.rev -
1`. -/
theorem find_ancestors_fetch_and_modify (oracle : SvnOracle)
    (stop_base_path : Option String) (s : FState) (e : SvnLogEntry)
    (hfetch : oracle s.cur_path s.cur_rev = some e)
    (hstop : ¬ (stop_base_path.isSome ∧ s.first_iter_done = true ∧
        is_child_path s.cur_path (stop_base_path.getD "") = true))
    (hne : (e.changed_paths.filter
        (fun d => is_child_path s.cur_path d.path)).isEmpty = false)
    (hscan : scan_changed s.cur_path e.revision
        (sort_paths_desc (e.changed_paths.filter
          (fun d => is_child_path s.cur_path d.path)))
      = ScanOut.fallthrough) :
    find_iter oracle stop_base_path s = Sum.inr { s with first_iter_done := true } ∧
    ∀ r : Nat, find_ancestors_fetch_query r = run_svn_log_query 1 r 1 true true := by
  constructor
  · simp only [find_iter, hfetch]
    rw [if_neg hstop]
    simp only [hne, Bool.false_eq_true, if_false]
    rw [hscan]
  · intro r
    rfl

/-- Witness for `find_ancestors_fetch_and_modify` at
`/branches/a@5` over `oracleModify`. -/
theorem find_ancestors_fetch_and_modify_witness :
    find_iter oracleModify (some "/trunk")
        { cur_path := "/branches/a", cur_rev := 5,
          first_iter_done := true, ancestors := [] }
      = Sum.inr ({ cur_path := "/branches/a", cur_rev := 5,
                   first_iter_done := true,
                   ancestors := [] : FState } : FState) ∧
    ∀ r : Nat, find_ancestors_fetch_query r = run_svn_log_query 1 r 1 true true :=
  find_ancestors_fetch_and_modify oracleModify (some "/trunk")
    { cur_path := "/branches/a", cur_rev := 5,
      first_iter_done := true, ancestors := [] }
    entryModify (by decide) (by decide) (by decide) (by decide)

/-- The entry loop of `build_rev_map`, on well-formed entries, inserts
exactly the matching entries. -/
theorem build_rev_map_go_filter (source_uuid quoted_url : String) :
    ∀ (entries : List TargetLogEntry) (m : RevMap),
      (∀ e ∈ entries, entry_wf source_uuid quoted_url e) →
      build_rev_map_go source_uuid quoted_url m entries
        = Except.ok (apply_rev_maps m
            (matched_inserts source_uuid quoted_url entries)) := by
  intro entries
  induction entries with
  | nil => intro m _; rfl
  | cons e rest ih =>
    intro m hwf
    have hwf_e := hwf e (List.mem_cons_self e rest)
    have hwf_rest : ∀ x ∈ rest, entry_wf source_uuid quoted_url x :=
      fun x hx => hwf x (List.mem_cons_of_mem e hx)
    by_cases hrp : e.revprops.isEmpty = true
    · have hstep : build_rev_map_step source_uuid quoted_url m e = Except.ok m := by
        simp [build_rev_map_step, hrp]
      have hd : (svn2svn_props e.revprops).isEmpty = true := by
        rcases hre : e.revprops with _ | ⟨a, l⟩
        · simp [svn2svn_props]
        · rw [hre] at hrp
          simp at hrp
      have hmatch : entry_matches source_uuid quoted_url e = false := by
        simp [entry_matches, hd]
      have hins : matched_inserts source_uuid quoted_url (e :: rest)
          = matched_inserts source_uuid quoted_url rest := by
        simp [matched_inserts, List.filterMap_cons, hmatch]
      simp only [build_rev_map_go, hstep, hins]
      exact ih m hwf_rest
    · by_cases hd : (svn2svn_props e.revprops).isEmpty = true
      · have hstep : build_rev_map_step source_uuid quoted_url m e = Except.ok m := by
          simp [build_rev_map_step, hrp, hd]
        have hmatch : entry_matches source_uuid quoted_url e = false := by
          simp [entry_matches, hd]
        have hins : matched_inserts source_uuid quoted_url (e :: rest)
            = matched_inserts source_uuid quoted_url rest := by
          simp [matched_inserts, List.filterMap_cons, hmatch]
        simp only [build_rev_map_go, hstep, hins]
        exact ih m hwf_rest
      · rcases hwf_e with hempty | ⟨u, hu, hrest1⟩
        · exact absurd hempty hd
        · by_cases huu : u = source_uuid
          · obtain ⟨url, hurl, hrest2⟩ := hrest1 huu
            by_cases hul : url = quoted_url
            · obtain ⟨sr, n, hsr, hn⟩ := hrest2 hul
              have hstep : build_rev_map_step source_uuid quoted_url m e
                  = Except.ok (set_rev_map m n e.revision) := by
                simp [build_rev_map_step, hrp, hd, hu, huu, hurl, hul, hsr, hn]
              have hmatch : entry_matches source_uuid quoted_url e = true := by
                simp [entry_matches, hd, hu, huu, hurl, hul]
              have hins : matched_inserts source_uuid quoted_url (e :: rest)
                  = (n, e.revision) :: matched_inserts source_uuid quoted_url rest := by
                simp [matched_inserts, List.filterMap_cons, hmatch, hsr, hn]
              simp only [build_rev_map_go, hstep, hins, apply_rev_maps]
              exact ih (set_rev_map m n e.revision) hwf_rest
            · have hstep : build_rev_map_step source_uuid quoted_url m e
                  = Except.ok m := by
                simp [build_rev_map_step, hrp, hd, hu, huu, hurl, hul]
              have hmatch : entry_matches source_uuid quoted_url e = false := by
                simp [entry_matches, hd, hu, huu, hurl, hul]
              have hins : matched_inserts source_uuid quoted_url (e :: rest)
                  = matched_inserts source_uuid quoted_url rest := by
                simp [matched_inserts, List.filterMap_cons, hmatch]
              simp only [build_rev_map_go, hstep, hins]
              exact ih m hwf_rest
          · have hstep : build_rev_map_step source_uuid quoted_url m e
                = Except.ok m := by
              simp [build_rev_map_step, hrp, hd, hu, huu]
            have hmatch : entry_matches source_uuid quoted_url e = false := by
              simp [entry_matches, hd, hu, huu]
            have hins : matched_inserts source_uuid quoted_url (e :: rest)
                = matched_inserts source_uuid quoted_url rest := by
              simp [matched_inserts, List.filterMap_cons, hmatch]
            simp only [build_rev_map_go, hstep, hins]
            exact ih m hwf_rest

/-- C6 counterexample: a target entry carrying only an
`svn2svn:keep-revnum` revprop (no `svn2svn:source_uuid`) makes
`build_rev_map` raise a `KeyError` rather than being silently ignored. -/
theorem build_rev_map_keyerror_counterexample :
    build_rev_map "U" "Q" [entryKeepRevnum]
      = Except.error "KeyError: svn2svn:source_uuid" ∧
    ∀ m : RevMap, build_rev_map "U" "Q" [entryKeepRevnum] ≠ Except.ok m := by
  have h : build_rev_map "U" "Q" [entryKeepRevnum]
      = Except.error "KeyError: svn2svn:source_uuid" := rfl
  refine ⟨h, fun m hm => ?_⟩
  rw [h] at hm
  cases hm

/-- C6 (amended): during the startup rebuild, an entry is inserted into the
rev map exactly when its `svn2svn:source_uuid` equals the source UUID and its
`svn2svn:source_url` equals the URL-quoted source URL; entries with no
`svn2svn:` revprops, or with a present-but-mismatched UUID (or matching UUID
and present-but-mismatched URL), are silently ignored — but an entry that
carries some `svn2svn:` revprop while missing `svn2svn:source_uuid` raises a
`KeyError` instead of being ignored (similarly for the other two keys when
the comparisons reach them). -/
theorem build_rev_map_filter (source_uuid quoted_url : String)
    (entries : List TargetLogEntry)
    (hwf : ∀ e ∈ entries, entry_wf source_uuid quoted_url e) :
    build_rev_map source_uuid quoted_url entries
      = Except.ok (apply_rev_maps []
          (matched_inserts source_uuid quoted_url entries)) ∧
    (∀ (m : RevMap) (e : TargetLogEntry),
      (svn2svn_props e.revprops).isEmpty = false →
      props_get (svn2svn_props e.revprops) "svn2svn:source_uuid" = none →
      build_rev_map_step source_uuid quoted_url m e
        = Except.error "KeyError: svn2svn:source_uuid") := by
  constructor
  · exact build_rev_map_go_filter source_uuid quoted_url entries [] hwf
  · intro m e hd hnone
    have hrp : e.revprops.isEmpty = false := by
      rcases hre : e.revprops with _ | ⟨a, l⟩
      · rw [hre] at hd
        simp [svn2svn_props] at hd
      · simp
    simp [build_rev_map_step, hrp, hd, hnone]

/-- Witness for `build_rev_map_filter` on a mixed list: an entry without
revprops, a fully matching entry, and a UUID-mismatched entry; only the
matching entry is inserted. -/
theorem build_rev_map_filter_witness :
    build_rev_map "U" "Q" [entryNoProps, entryFull, entryOtherUuid]
      = Except.ok (apply_rev_maps []
          (matched_inserts "U" "Q" [entryNoProps, entryFull, entryOtherUuid])) ∧
    (∀ (m : RevMap) (e : TargetLogEntry),
      (svn2svn_props e.revprops).isEmpty = false →
      props_get (svn2svn_props e.revprops) "svn2svn:source_uuid" = none →
      build_rev_map_step "U" "Q" m e
        = Except.error "KeyError: svn2svn:source_uuid") :=
  build_rev_map_filter "U" "Q" [entryNoProps, entryFull, entryOtherUuid]
    (by
      intro e he
      simp only [List.mem_cons, List.not_mem_nil, or_false] at he
      rcases he with rfl | rfl | rfl
      · exact Or.inl (by decide)
      · exact Or.inr ⟨"U", by decide,
          fun _ => ⟨"Q", by decide, fun _ => ⟨"12", 12, by decide, by decide⟩⟩⟩
      · exact Or.inr ⟨"OTHER", by decide,
          fun habs => absurd habs (by decide)⟩)

/-- Lexicographic order on code points is asymmetric. -/
theorem chars_lt_asymm : ∀ x y : List Char, chars_lt x y = true → chars_lt y x = false := by
  intro x
  induction x with
  | nil =>
    intro y h
    cases y with
    | nil => simp [chars_lt] at h
    | cons b bs => simp [chars_lt]
  | cons a as ih =>
    intro y h
    cases y with
    | nil => simp [chars_lt] at h
    | cons b bs =>
      unfold chars_lt at h ⊢
      by_cases hab : a < b
      · have hba : ¬ b < a := lt_asymm hab
        rw [if_neg hba, if_pos hab]
      · rw [if_neg hab] at h
        by_cases hba : b < a
        · rw [if_pos hba] at h
          simp at h
        · rw [if_neg hba] at h
          rw [if_neg hba, if_neg hab]
          exact ih bs h

/-- Python string `<` is asymmetric. -/
theorem str_lt_asymm (a b : String) (h : str_lt a b = true) : str_lt b a = false :=
  chars_lt_asymm a.data b.data h

/-- Stable ascending insertion preserves ascending chains. -/
theorem insert_path_asc_chain (d : ChangedPath) :
    ∀ l : List ChangedPath,
      l.Chain' (fun a b => str_lt b.path a.path = false) →
      (insert_path_asc d l).Chain' (fun a b => str_lt b.path a.path = false) := by
  intro l
  induction l with
  | nil => intro _; exact List.chain'_singleton d
  | cons e rest ih =>
    intro h
    rw [List.chain'_cons'] at h
    unfold insert_path_asc
    by_cases hed : str_lt e.path d.path = true
    · rw [if_pos hed, List.chain'_cons']
      constructor
      · intro b hb
        cases rest with
        | nil =>
          simp [insert_path_asc] at hb
          subst hb
          exact str_lt_asymm _ _ hed
        | cons f rest2 =>
          by_cases hfd : str_lt f.path d.path = true
          · simp only [insert_path_asc, if_pos hfd, List.head?_cons,
              Option.mem_def, Option.some.injEq] at hb
            subst hb
            exact h.1 f (by simp)
          · simp only [insert_path_asc, if_neg hfd, List.head?_cons,
              Option.mem_def, Option.some.injEq] at hb
            subst hb
            exact str_lt_asymm _ _ hed
      · exact ih h.2
    · rw [if_neg hed, List.chain'_cons']
      constructor
      · intro b hb
        simp only [List.head?_cons, Option.mem_def, Option.some.injEq] at hb
        subst hb
        exact Bool.not_eq_true _ ▸ (Bool.of_not_eq_true hed)
      · rw [List.chain'_cons']
        exact h

/-- The parser's ascending sort produces ascending chains. -/
theorem sort_paths_asc_chain :
    ∀ l : List ChangedPath,
      (sort_paths_asc l).Chain' (fun a b => str_lt b.path a.path = false) := by
  intro l
  induction l with
  | nil => exact List.chain'_nil
  | cons d rest ih => exact insert_path_asc_chain d _ ih

/-- The processor's loop appends, changed path by changed path and in list
order, exactly the per-path operation groups, and folds the per-path
deferred-export contributions with `add_path`. -/
theorem process_entry_go_spec (env : WCEnv) (keep_prop : Bool)
    (source_base : String) (all_cp : List ChangedPath) :
    ∀ (cps : List ChangedPath) (st st2 : ProcState),
      process_entry_go env keep_prop source_base all_cp st cps = Except.ok st2 →
      st2.ops = st.ops ++
        cps.flatMap (changed_path_ops env keep_prop source_base all_cp) ∧
      st2.export_paths
        = cps.foldl (fun acc d =>
            (changed_path_defer env keep_prop source_base all_cp d).foldl add_path acc)
          st.export_paths := by
  intro cps
  induction cps with
  | nil =>
    intro st st2 h
    cases h
    simp
  | cons d rest ih =>
    intro st st2 h
    unfold process_entry_go at h
    rcases hstep : process_changed_path env keep_prop source_base all_cp st d
      with err | stm
    · rw [hstep] at h
      simp at h
    · rw [hstep] at h
      dsimp only at h
      unfold process_changed_path at hstep
      rcases hout : changed_path_outcome env keep_prop source_base all_cp d
        with err2 | trip
      · rw [hout] at hstep
        simp at hstep
      · obtain ⟨commit, ops, defers⟩ := trip
        rw [hout] at hstep
        dsimp only at hstep
        have hops : changed_path_ops env keep_prop source_base all_cp d = ops := by
          simp [changed_path_ops, hout]
        have hdef : changed_path_defer env keep_prop source_base all_cp d = defers := by
          simp [changed_path_defer, hout]
        cases hstep
        obtain ⟨h1, h2⟩ := ih _ _ h
        constructor
        · rw [h1]
          simp [List.flatMap_cons, hops, List.append_assoc]
        · rw [h2]
          simp [List.foldl_cons, hdef]

/-- C5 (amended): within one source revision the processor applies the
changed-path groups strictly in list order — the parser's sort puts that list
in ascending path order — followed by the deferred directory exports; and a
changed path with action `R` whose offset is *non-empty* and already
versioned in the target working copy first executes its implicit delete
(`update` for directories, then `remove --force`) and is then handled as
action `A` in the same position.  (An `R` on the replay base itself, offset
`""`, or on an unversioned path, skips the implicit delete.) -/
theorem process_entry_ordered (env : WCEnv) (keep_prop : Bool)
    (source_base : String) (entry : SvnLogEntry) (st : ProcState)
    (hok : process_svn_log_entry env keep_prop source_base entry = Except.ok st) :
    st.ops
      = entry.changed_paths.flatMap
          (changed_path_ops env keep_prop source_base entry.changed_paths)
        ++ (entry.changed_paths.foldl (fun acc d =>
              (changed_path_defer env keep_prop source_base entry.changed_paths d).foldl
                add_path acc) []).map WCOp.exportForce ∧
    (∀ l : List ChangedPath,
      (sort_paths_asc l).Chain' (fun a b => str_lt b.path a.path = false)) ∧
    (∀ d2 : ChangedPath, d2.action = 'R' →
      is_child_path d2.path source_base = true →
      ¬ (strip_slashes (d2.path.drop source_base.length) = "") →
      env.in_svn (strip_slashes (d2.path.drop source_base.length)) = true →
      ((if d2.kind = "" ∨ d2.kind = "none" then env.resolve_kind d2.path else d2.kind)
          = "file" ∨
       (if d2.kind = "" ∨ d2.kind = "none" then env.resolve_kind d2.path else d2.kind)
          = "dir") →
      changed_path_ops env keep_prop source_base entry.changed_paths d2
        = (if (if d2.kind = "" ∨ d2.kind = "none" then env.resolve_kind d2.path else d2.kind)
              = "dir"
           then [WCOp.update (strip_slashes (d2.path.drop source_base.length))]
           else [])
          ++ [WCOp.removeForce (strip_slashes (d2.path.drop source_base.length))]
          ++ changed_path_ops env keep_prop source_base entry.changed_paths
              { d2 with action := 'A' }) := by
  refine ⟨?_, sort_paths_asc_chain, ?_⟩
  · unfold process_svn_log_entry at hok
    rcases hgo : process_entry_go env keep_prop source_base entry.changed_paths
        { commit_paths := [], export_paths := [], ops := [] } entry.changed_paths
      with err | st0
    · rw [hgo] at hok
      simp at hok
    · rw [hgo] at hok
      dsimp only at hok
      cases hok
      obtain ⟨h1, h2⟩ := process_entry_go_spec env keep_prop source_base
        entry.changed_paths entry.changed_paths _ _ hgo
      simp only [h1, h2]
      simp
  · intro d2 hR hchild hoff hsvn hkind
    have hvR : valid_svn_actions.contains 'R' = true := rfl
    have hvA : valid_svn_actions.contains 'A' = true := rfl
    have hmR : 'R' ∈ valid_svn_actions := by decide
    have hmA : 'A' ∈ valid_svn_actions := by decide
    rcases hkind with hk | hk <;>
      rcases hcf : truthy_nat d2.copyfrom_rev with _ | _ <;>
        simp [changed_path_ops, changed_path_outcome, hchild, hR, hk, hoff, hsvn,
          hcf, hvR, hvA, hmR, hmA]

/-- C5 counterexample: a replace (`R`) of the replay base `/trunk` itself —
`path_offset = ""`, versioned in the working copy (`in_svn "" = true`) —
emits no implicit delete: the trace contains no `remove --force`, so not
every already-versioned `R` path executes its implicit delete. -/
theorem process_replace_root_counterexample :
    process_svn_log_entry envAll false "/trunk" entryReplaceRoot
      = Except.ok { commit_paths := [""], export_paths := [""],
                    ops := [WCOp.exportForce ""] } ∧
    envAll.in_svn "" = true ∧
    WCOp.removeForce "" ∉ [WCOp.exportForce ""] := by
  refine ⟨rfl, rfl, ?_⟩
  decide

/-- Witness for `process_entry_ordered` on `entryMixed` over `envMixed`:
the add of `a` and the replace of the versioned `z` produce, in ascending
path order, the `a` group then the `z` group, the latter starting with its
implicit delete. -/
theorem process_entry_ordered_witness :
    ({ commit_paths := ["a", "z"], export_paths := [],
       ops := [WCOp.exportForce "a", WCOp.addParents "a",
               WCOp.removeForce "z", WCOp.exportForce "z"] } : ProcState).ops
      = entryMixed.changed_paths.flatMap
          (changed_path_ops envMixed false "/trunk" entryMixed.changed_paths)
        ++ (entryMixed.changed_paths.foldl (fun acc d =>
              (changed_path_defer envMixed false "/trunk" entryMixed.changed_paths d).foldl
                add_path acc) []).map WCOp.exportForce ∧
    (∀ l : List ChangedPath,
      (sort_paths_asc l).Chain' (fun a b => str_lt b.path a.path = false)) ∧
    (∀ d2 : ChangedPath, d2.action = 'R' →
      is_child_path d2.path "/trunk" = true →
      ¬ (strip_slashes (d2.path.drop "/trunk".length) = "") →
      envMixed.in_svn (strip_slashes (d2.path.drop "/trunk".length)) = true →
      ((if d2.kind = "" ∨ d2.kind = "none" then envMixed.resolve_kind d2.path else d2.kind)
          = "file" ∨
       (if d2.kind = "" ∨ d2.kind = "none" then envMixed.resolve_kind d2.path else d2.kind)
          = "dir") →
      changed_path_ops envMixed false "/trunk" entryMixed.changed_paths d2
        = (if (if d2.kind = "" ∨ d2.kind = "none" then envMixed.resolve_kind d2.path
                else d2.kind) = "dir"
           then [WCOp.update (strip_slashes (d2.path.drop "/trunk".length))]
           else [])
          ++ [WCOp.removeForce (strip_slashes (d2.path.drop "/trunk".length))]
          ++ changed_path_ops envMixed false "/trunk" entryMixed.changed_paths
              { d2 with action := 'A' }) :=
  process_entry_ordered envMixed false "/trunk" entryMixed
    { commit_paths := ["a", "z"], export_paths := [],
      ops := [WCOp.exportForce "a", WCOp.addParents "a",
              WCOp.removeForce "z", WCOp.exportForce "z"] }
    (by rfl)

end Svn2Svn
